import Mathlib

/-!
Verification of the layout-calculation core of the calculator-layout repository
(file src/calculator-layout.class.ts, class CalculatorLayoutClass).

The numeric inputs of the program are plain JavaScript numbers.  Every
arithmetic operation performed by the calculation core (addition, subtraction,
multiplication, the remainder operator, and the two divisions in the cut
methods) is exact on integer inputs: the `%` operator is modelled by `Int.tmod`
(JavaScript's remainder truncates the quotient toward zero and gives the result
the sign of the dividend), and the two divisions `(a - a % b) / b` always
divide an exact multiple of `b`, so integer division agrees with the
real-number division the program performs.  Sizes, coordinates and grid counts
are therefore embedded as `ℤ`.

Fallible methods (`throw new Error(...)`) are embedded as `Except LayoutError`
values, one error constructor per distinct error message of the source.
-/

namespace CalculatorLayout

/-- Error outcomes of the source, one constructor per `throw new Error(...)`
message in `calculator-layout.class.ts` (only the messages reachable from the
calculation core are modelled; the drawing/config messages are out of scope):
`targetNotPositive` = "Target width and height must be positive values.",
`targetTooLarge` = "Target size is too large for the source with margin.",
`sourceNotPositive` = "Source width and height must be positive values.",
`marginNegative` = "Margin width and height must be non-negative values.",
`marginTooLarge` = "Margin values are too large",
`rectMatrixArrayInvalid` = "rectMatrixArray is empty or undefined or not an array",
`rectMatrixArrayEmpty` = "rectMatrixArray is empty",
`gridRowEmpty` = "the number of rows in grid cannot be zero or negative number",
`gridColumnEmpty` = "the number of columns in grid cannot be zero or negative number",
`divisionByZero` = "Division by zero",
`negativeRemainX` = "there is a negative remainX",
`negativeRemainY` = "there is a negative remainY". -/
inductive LayoutError where
  | targetNotPositive
  | targetTooLarge
  | sourceNotPositive
  | marginNegative
  | marginTooLarge
  | rectMatrixArrayInvalid
  | rectMatrixArrayEmpty
  | gridRowEmpty
  | gridColumnEmpty
  | divisionByZero
  | negativeRemainX
  | negativeRemainY
deriving DecidableEq, Repr

/-- Interface `ISquareSize` of calculator-layout.interface.ts: a width/height pair. -/
structure ISquareSize where
  width : ℤ
  height : ℤ
deriving DecidableEq, Repr

/-- Interface `IRectPlotConfig`: a positioned rectangle.  The source marks `x`
and `y` optional, but every rectangle built by `_buildRectMatrix` sets them. -/
structure IRectPlotConfig where
  x : ℤ
  y : ℤ
  width : ℤ
  height : ℤ
deriving DecidableEq, Repr

/-- The `grid: { row, column }` field of `IRectMatrixResult`: the loop indices
of the cell inside its matrix. -/
structure IGridPosition where
  row : ℕ
  column : ℕ
deriving DecidableEq, Repr

/-- Interface `IRectMatrixResult`: one placed rectangle (inner = target
footprint, outer = target-plus-margin footprint, grid = cell indices). -/
structure IRectMatrixResult where
  inner : IRectPlotConfig
  outer : IRectPlotConfig
  grid : IGridPosition
deriving DecidableEq, Repr

/-- Interface `IMatrixGrid`: row/column counts of a fitted grid.  The source
stores them as numbers computed by exact division, hence `ℤ` here. -/
structure IMatrixGrid where
  row : ℤ
  column : ℤ
deriving DecidableEq, Repr

/-- Interface `ILayoutCoords`: a start position for laying out a grid. -/
structure ILayoutCoords where
  x : ℤ
  y : ℤ
deriving DecidableEq, Repr

/-- Interface `IPaperLayoutSizing`: in the source a string-indexed map of
`ISquareSize`; the `calculate` method always populates exactly the keys
`source`, `outerSize`, `innerSize`, `marginSize`, so it is embedded as a
record with those four fields. -/
structure IPaperLayoutSizing where
  source : ISquareSize
  outerSize : ISquareSize
  innerSize : ISquareSize
  marginSize : ISquareSize
deriving DecidableEq, Repr

/-- The `{ grid, start }` object returned by `_calculateRemain`. -/
structure RemainResult where
  grid : IMatrixGrid
  start : ILayoutCoords
deriving DecidableEq, Repr

/-- Interface `ILayoutResult`: `main` always present, `remain` an optional key
(the source returns `{ main }` without a `remain` key on the no-remainder
path, hence `Option`). -/
structure ILayoutResult where
  main : List IRectMatrixResult
  remain : Option (List IRectMatrixResult)
deriving DecidableEq, Repr

/-- Return type of `calculate`: `ILayoutResult & { total: number }`. -/
structure CalculationResult where
  main : List IRectMatrixResult
  remain : Option (List IRectMatrixResult)
  total : ℕ
deriving DecidableEq, Repr

/-- JavaScript's `%` on numbers: the remainder after truncating the quotient
toward zero, with the sign of the dividend.  On integers this is `Int.tmod`. -/
def jsMod (a b : ℤ) : ℤ :=
  Int.tmod a b

/-- Method `_validateDivisionByZero`. -/
def validateDivisionByZero (dividend : ℤ) : Except LayoutError Unit :=
  if dividend = 0 then .error .divisionByZero else .ok ()

/-- Method `_validateRemainXY`. -/
def validateRemainXY (remainX remainY : ℤ) : Except LayoutError Unit :=
  if remainX < 0 then .error .negativeRemainX
  else if remainY < 0 then .error .negativeRemainY
  else .ok ()

/-- Method `_validateGrid`. -/
def validateGrid (grid : IMatrixGrid) : Except LayoutError Unit :=
  if grid.row ≤ 0 then .error .gridRowEmpty
  else if grid.column ≤ 0 then .error .gridColumnEmpty
  else .ok ()

/-- Method `_validateRectMatrixArray`.  The null/non-array cases of the first
guard cannot arise for a `List`; the `length === 0` alternative of that guard
and the second guard (`rectMatrixArray[0].length === 0`) are modelled. -/
def validateRectMatrixArray (rectMatrixArray : List (List IRectMatrixResult)) :
    Except LayoutError Unit :=
  match rectMatrixArray with
  | [] => .error .rectMatrixArrayInvalid
  | row0 :: _ => if row0.length = 0 then .error .rectMatrixArrayEmpty else .ok ()

/-- Method `_validateSource` (the `isNaN` guard has no counterpart on `ℤ`). -/
def validateSource (source : ISquareSize) : Except LayoutError Unit :=
  if source.width ≤ 0 ∨ source.height ≤ 0 then .error .sourceNotPositive
  else .ok ()

/-- Method `_validateTarget` (the null and `isNaN` guards have no counterpart
on `ℤ`). -/
def validateTarget (target source margin : ISquareSize) : Except LayoutError Unit :=
  if target.width ≤ 0 ∨ target.height ≤ 0 then .error .targetNotPositive
  else if target.width + 2 * margin.width > source.width ∨
      target.height + 2 * margin.height > source.height then .error .targetTooLarge
  else .ok ()

/-- Method `_validateMargin`. -/
def validateMargin (margin source target : ISquareSize) : Except LayoutError Unit :=
  if margin.width < 0 ∨ margin.height < 0 then .error .marginNegative
  else if target.width + 2 * margin.width > source.width ∨
      target.height + 2 * margin.height > source.height then .error .marginTooLarge
  else .ok ()

/-- The validation sequence of the constructor, in source order:
`_validateTarget`, then `_validateSource`, then `_validateMargin`. -/
def validateInputs (source target margin : ISquareSize) : Except LayoutError Unit := do
  validateTarget target source margin
  validateSource source
  validateMargin margin source target

/-- The class data held by a constructed `CalculatorLayoutClass` instance
(the drawing/config state is out of scope). -/
structure CalculatorLayoutClass where
  source : ISquareSize
  target : ISquareSize
  margin : ISquareSize
  useInline : Bool
deriving DecidableEq, Repr

/-- The constructor of `CalculatorLayoutClass`: runs the three validations and
only then yields an instance.  (The constructor's final margin normalisation
rewrites a `{width: 0, height: 0}` margin to `{width: 0, height: 0}` on
integer inputs, a no-op, and is omitted.) -/
def newCalculatorLayoutClass (source target margin : ISquareSize) (useInline : Bool) :
    Except LayoutError CalculatorLayoutClass := do
  validateInputs source target margin
  return ⟨source, target, margin, useInline⟩

/-- Method `_inlineCut`: whole target-plus-margin cells fitted axis-aligned.
`(source.width - source.width % cell) / cell` is an exact integer division. -/
def inlineCut (source target margin : ISquareSize) : Except LayoutError IMatrixGrid := do
  validateDivisionByZero (target.width + 2 * margin.width)
  validateDivisionByZero (target.height + 2 * margin.height)
  let input : ISquareSize :=
    ⟨target.width + 2 * margin.width, target.height + 2 * margin.height⟩
  let remainX := jsMod source.width input.width
  let remainY := jsMod source.height input.height
  let column := (source.width - remainX) / input.width
  let row := (source.height - remainY) / input.height
  return ⟨row, column⟩

/-- Method `_crossCut`: like `_inlineCut` but each source axis is divided by
the cell dimension of the opposite axis (the 90-degree-rotated fit). -/
def crossCut (source target margin : ISquareSize) : Except LayoutError IMatrixGrid := do
  validateDivisionByZero (target.width + 2 * margin.width)
  validateDivisionByZero (target.height + 2 * margin.height)
  let input : ISquareSize :=
    ⟨target.width + 2 * margin.width, target.height + 2 * margin.height⟩
  let remainX := jsMod source.width input.height
  let remainY := jsMod source.height input.width
  let column := (source.width - remainX) / input.height
  let row := (source.height - remainY) / input.width
  return ⟨row, column⟩

/-- One iteration of the nested loop body of `_buildRectMatrix` at row `r`,
column `c` (the values read from the matrix entry are immediately overwritten
by the source, so the cell depends only on the indices and the sizing). -/
def buildRectCell (outerSize innerSize marginSize : ISquareSize)
    (start : Option ILayoutCoords) (r c : ℕ) : IRectMatrixResult :=
  let outer : IRectPlotConfig :=
    { x := (match start with | some s => s.x | none => 0) + (c : ℤ) * outerSize.width
      y := (match start with | some s => s.y | none => 0) + (r : ℤ) * outerSize.height
      width := outerSize.width
      height := outerSize.height }
  let inner : IRectPlotConfig :=
    { x := outer.x + marginSize.width
      y := outer.y + marginSize.height
      width := innerSize.width
      height := innerSize.height }
  { inner := inner, outer := outer, grid := { row := r, column := c } }

/-- The nested `for r / for c` loops of `_buildRectMatrix`, pushing one cell
per matrix entry in row-major order; `r` is the index of the first remaining
row. -/
def buildRectRows (outerSize innerSize marginSize : ISquareSize)
    (start : Option ILayoutCoords) : ℕ → List (List IRectMatrixResult) →
    List IRectMatrixResult
  | _, [] => []
  | r, row :: rest =>
      (List.range row.length).map (buildRectCell outerSize innerSize marginSize start r) ++
        buildRectRows outerSize innerSize marginSize start (r + 1) rest

/-- Method `_buildRectMatrix`: validates the matrix, swaps the three sizings
when `reverse` is set, and emits one rectangle per matrix cell. -/
def buildRectMatrix (rectMatrixArray : List (List IRectMatrixResult))
    (sizing : IPaperLayoutSizing) (reverse : Bool := false)
    (start : Option ILayoutCoords := none) :
    Except LayoutError (List IRectMatrixResult) := do
  validateRectMatrixArray rectMatrixArray
  let outerSize : ISquareSize :=
    ⟨if reverse then sizing.outerSize.height else sizing.outerSize.width,
     if reverse then sizing.outerSize.width else sizing.outerSize.height⟩
  let innerSize : ISquareSize :=
    ⟨if reverse then sizing.innerSize.height else sizing.innerSize.width,
     if reverse then sizing.innerSize.width else sizing.innerSize.height⟩
  let marginSize : ISquareSize :=
    ⟨if reverse then sizing.marginSize.height else sizing.marginSize.width,
     if reverse then sizing.marginSize.width else sizing.marginSize.height⟩
  return buildRectRows outerSize innerSize marginSize start 0 rectMatrixArray

/-- Method `_calculateRemain`: decides which leftover strip (if any) receives a
cross-fitted secondary grid.  The source names the guards `condition1 =
remainY >= target.width` and `condition2 = remainX >= target.height` and tests
`condition2` first. -/
def calculateRemain (source container target margin : ISquareSize) :
    Except LayoutError (Option RemainResult) := do
  let remainX := source.width - container.width
  let remainContainerX : ISquareSize := ⟨remainX, source.height⟩
  let remainY := source.height - container.height
  let remainContainerY : ISquareSize := ⟨source.width, remainY⟩
  validateRemainXY remainX remainY
  if target.height ≤ remainX then do
    -- condition2: pack the vertical strip, to the right of the main grid
    let grid ← crossCut remainContainerX target margin
    return some ⟨grid, ⟨container.width, 0⟩⟩
  else if target.width ≤ remainY then do
    -- condition1: pack the horizontal strip, below the main grid
    let grid ← crossCut remainContainerY target margin
    return some ⟨grid, ⟨0, container.height⟩⟩
  else
    return none

/-- The placeholder `{ inner: {}, outer: {}, grid: {} }` used to fill the
matrices in `_generateLayoutMatrix`; its contents are never read. -/
def emptyRectMatrixResult : IRectMatrixResult :=
  ⟨⟨0, 0, 0, 0⟩, ⟨0, 0, 0, 0⟩, ⟨0, 0⟩⟩

/-- The `mainContainer` bounding box computed inside `_generateLayoutMatrix`
(its `x`/`y` fields, always zero, are never read by `_calculateRemain`). -/
def mainContainer (grid : IMatrixGrid) (sizing : IPaperLayoutSizing) : ISquareSize :=
  ⟨sizing.outerSize.width * grid.column, sizing.outerSize.height * grid.row⟩

/-- Method `_generateLayoutMatrix`: validates the grid, lays out the main
matrix, computes the remainder, and lays out the reversed remainder matrix
when the remainder grid has positive rows and columns.  `Array(n)` on the
integer counts produced by the cut methods is modelled by `Int.toNat`. -/
def generateLayoutMatrix (grid : IMatrixGrid) (sizing : IPaperLayoutSizing) :
    Except LayoutError ILayoutResult := do
  validateGrid grid
  let mainMatrix :=
    List.replicate grid.row.toNat (List.replicate grid.column.toNat emptyRectMatrixResult)
  let main ← buildRectMatrix mainMatrix sizing
  let remainer ← calculateRemain sizing.source (mainContainer grid sizing)
    sizing.innerSize sizing.marginSize
  match remainer with
  | some rem =>
      if 0 < rem.grid.row ∧ 0 < rem.grid.column then do
        let remainMatrix := List.replicate rem.grid.row.toNat
          (List.replicate rem.grid.column.toNat emptyRectMatrixResult)
        let remain ← buildRectMatrix remainMatrix sizing true (some rem.start)
        return { main := main, remain := some remain }
      else
        return { main := main, remain := none }
  | none => return { main := main, remain := none }

/-- The `innerSize`, `outerSize` and `marginSize` locals of `calculate`,
assembled into the `sizing` record it passes on: `useInline` keeps the target
and margin axes as given, cross mode swaps them. -/
def calcSizing (source target margin : ISquareSize) (useInline : Bool) :
    IPaperLayoutSizing :=
  { source := source
    outerSize :=
      ⟨if useInline then target.width + 2 * margin.width
        else target.height + 2 * margin.height,
       if useInline then target.height + 2 * margin.height
        else target.width + 2 * margin.width⟩
    innerSize :=
      ⟨if useInline then target.width else target.height,
       if useInline then target.height else target.width⟩
    marginSize :=
      ⟨if useInline then margin.width else margin.height,
       if useInline then margin.height else margin.width⟩ }

/-- The primary-grid dispatch of `calculate`: `this._useInline ?
this._inlineCut(...) : this._crossCut(...)`. -/
def primaryCut (source target margin : ISquareSize) (useInline : Bool) :
    Except LayoutError IMatrixGrid :=
  if useInline then inlineCut source target margin
  else crossCut source target margin

/-- Method `calculate` of `CalculatorLayoutClass`, written over the instance
fields it reads: fits the primary grid with the selected cut method, validates
it, expands the layout, and sums the lengths of the layout's present keys
(`main`, and `remain` when present) into `total`. -/
def calculate (source target margin : ISquareSize) (useInline : Bool) :
    Except LayoutError CalculationResult := do
  let grid ← primaryCut source target margin useInline
  validateGrid grid
  let sizing := calcSizing source target margin useInline
  let layout ← generateLayoutMatrix grid sizing
  let total := layout.main.length +
    (match layout.remain with | some r => r.length | none => 0)
  return { main := layout.main, remain := layout.remain, total := total }

end CalculatorLayout

namespace CalculatorLayout

/-! ## Basic facts about the `Except` embedding -/

theorem pure_eq_ok {ε α : Type} (a : α) : (pure a : Except ε α) = .ok a := rfl

theorem ok_bind {ε α β : Type} (a : α) (f : α → Except ε β) :
    (Except.ok a : Except ε α) >>= f = f a := rfl

theorem error_bind {ε α β : Type} (e : ε) (f : α → Except ε β) :
    (Except.error e : Except ε α) >>= f = .error e := rfl

theorem bind_eq_ok {ε α β : Type} {x : Except ε α} {f : α → Except ε β} {b : β} :
    x >>= f = .ok b ↔ ∃ a, x = .ok a ∧ f a = .ok b := by
  cases x with
  | error e => simp [error_bind]
  | ok a => simp [ok_bind]

/-- Decidable equality of `Except` outcomes, for evaluating the embedding on
concrete inputs. -/
instance exceptDecidableEq {e a : Type} [DecidableEq e] [DecidableEq a] :
    DecidableEq (Except e a) := fun x y =>
  match x, y with
  | .error u, .error v =>
      if h : u = v then .isTrue (by rw [h])
      else .isFalse (by intro hc; cases hc; exact h rfl)
  | .ok u, .ok v =>
      if h : u = v then .isTrue (by rw [h])
      else .isFalse (by intro hc; cases hc; exact h rfl)
  | .error _, .ok _ => .isFalse (by intro hc; cases hc)
  | .ok _, .error _ => .isFalse (by intro hc; cases hc)

/-! ## The constructor validation -/

/-- The constructor validation succeeds exactly on the inputs the
specification calls valid: positive source and target, non-negative margin,
and a target-plus-margin cell that fits the source on both axes. -/
theorem validateInputs_ok_iff (source target margin : ISquareSize) :
    validateInputs source target margin = .ok () ↔
      0 < target.width ∧ 0 < target.height ∧
      target.width + 2 * margin.width ≤ source.width ∧
      target.height + 2 * margin.height ≤ source.height ∧
      0 < source.width ∧ 0 < source.height ∧
      0 ≤ margin.width ∧ 0 ≤ margin.height := by
  unfold validateInputs validateTarget validateSource validateMargin
  split_ifs <;> simp [ok_bind, error_bind] <;> omega

/-! ## Arithmetic facts about the cut computations -/

theorem jsMod_eq_emod {a b : ℤ} (ha : 0 ≤ a) (hb : 0 ≤ b) : jsMod a b = a % b :=
  Int.tmod_eq_emod ha hb

theorem jsMod_nonneg {a b : ℤ} (ha : 0 ≤ a) (hb : 0 < b) : 0 ≤ jsMod a b := by
  rw [jsMod_eq_emod ha hb.le]
  exact Int.emod_nonneg a hb.ne'

theorem sub_jsMod {a b : ℤ} (ha : 0 ≤ a) (hb : 0 < b) :
    a - jsMod a b = b * (a / b) := by
  rw [jsMod_eq_emod ha hb.le, Int.emod_def]
  ring

theorem sub_jsMod_div {a b : ℤ} (ha : 0 ≤ a) (hb : 0 < b) :
    (a - jsMod a b) / b = a / b := by
  rw [sub_jsMod ha hb, Int.mul_ediv_cancel_left _ hb.ne']

theorem one_le_ediv_iff {a b : ℤ} (hb : 0 < b) : 1 ≤ a / b ↔ b ≤ a := by
  rw [Int.le_ediv_iff_mul_le hb, one_mul]

theorem ediv_mul_le_self {a b : ℤ} (hb : 0 < b) : b * (a / b) ≤ a := by
  have h := Int.emod_nonneg a hb.ne'
  rw [Int.emod_def] at h
  omega

/-- The value computed by `_inlineCut` on a non-negative source and positive
cell dimensions: integer (= floor) division of each source axis by the
aligned cell axis. -/
theorem inlineCut_eq_div (source target margin : ISquareSize)
    (hsw : 0 ≤ source.width) (hsh : 0 ≤ source.height)
    (hw : 0 < target.width + 2 * margin.width)
    (hh : 0 < target.height + 2 * margin.height) :
    inlineCut source target margin =
      .ok ⟨source.height / (target.height + 2 * margin.height),
           source.width / (target.width + 2 * margin.width)⟩ := by
  unfold inlineCut validateDivisionByZero
  rw [if_neg hw.ne', if_neg hh.ne']
  simp only [ok_bind]
  rw [sub_jsMod_div hsw hw, sub_jsMod_div hsh hh]
  rfl

/-- The value computed by `_crossCut` on a non-negative source and positive
cell dimensions: integer (= floor) division of each source axis by the cell
dimension of the opposite axis. -/
theorem crossCut_eq_div (source target margin : ISquareSize)
    (hsw : 0 ≤ source.width) (hsh : 0 ≤ source.height)
    (hw : 0 < target.width + 2 * margin.width)
    (hh : 0 < target.height + 2 * margin.height) :
    crossCut source target margin =
      .ok ⟨source.height / (target.width + 2 * margin.width),
           source.width / (target.height + 2 * margin.height)⟩ := by
  unfold crossCut validateDivisionByZero
  rw [if_neg hw.ne', if_neg hh.ne']
  simp only [ok_bind]
  rw [sub_jsMod_div hsw hh, sub_jsMod_div hsh hw]
  rfl

end CalculatorLayout

namespace CalculatorLayout

/-! ## Structure of the rectangle lists built by `_buildRectMatrix` -/

theorem buildRectRows_replicate_succ (outerSize innerSize marginSize : ISquareSize)
    (start : Option ILayoutCoords) (r0 n k : ℕ) (e : IRectMatrixResult) :
    buildRectRows outerSize innerSize marginSize start r0
        (List.replicate (n + 1) (List.replicate k e)) =
      (List.range k).map (buildRectCell outerSize innerSize marginSize start r0) ++
        buildRectRows outerSize innerSize marginSize start (r0 + 1)
          (List.replicate n (List.replicate k e)) := by
  simp [List.replicate_succ, buildRectRows]

theorem mem_buildRectRows_replicate {outerSize innerSize marginSize : ISquareSize}
    {start : Option ILayoutCoords} {n k : ℕ} {e : IRectMatrixResult}
    {p : IRectMatrixResult} (r0 : ℕ) :
    p ∈ buildRectRows outerSize innerSize marginSize start r0
        (List.replicate n (List.replicate k e)) ↔
      ∃ r c, r < n ∧ c < k ∧
        p = buildRectCell outerSize innerSize marginSize start (r0 + r) c := by
  induction n generalizing r0 with
  | zero => simp [buildRectRows]
  | succ n ih =>
      rw [buildRectRows_replicate_succ]
      simp only [List.mem_append, List.mem_map, List.mem_range, ih (r0 + 1)]
      constructor
      · rintro (⟨c, hc, rfl⟩ | ⟨r, c, hr, hc, rfl⟩)
        · exact ⟨0, c, Nat.succ_pos n, hc, rfl⟩
        · refine ⟨r + 1, c, Nat.succ_lt_succ hr, hc, ?_⟩
          have h : r0 + 1 + r = r0 + (r + 1) := by omega
          rw [h]
      · rintro ⟨r, c, hr, hc, rfl⟩
        cases r with
        | zero => exact Or.inl ⟨c, hc, rfl⟩
        | succ r =>
            refine Or.inr ⟨r, c, Nat.lt_of_succ_lt_succ hr, hc, ?_⟩
            have h : r0 + 1 + r = r0 + (r + 1) := by omega
            rw [h]

theorem length_buildRectRows_replicate (outerSize innerSize marginSize : ISquareSize)
    (start : Option ILayoutCoords) (n k : ℕ) (e : IRectMatrixResult) (r0 : ℕ) :
    (buildRectRows outerSize innerSize marginSize start r0
        (List.replicate n (List.replicate k e))).length = n * k := by
  induction n generalizing r0 with
  | zero => simp [buildRectRows]
  | succ n ih =>
      rw [buildRectRows_replicate_succ]
      simp [ih (r0 + 1), Nat.succ_mul, Nat.add_comm]

theorem pairwise_buildRectRows_replicate {R : IRectMatrixResult → IRectMatrixResult → Prop}
    {outerSize innerSize marginSize : ISquareSize} {start : Option ILayoutCoords}
    {n k : ℕ} {e : IRectMatrixResult} (r0 : ℕ)
    (hR : ∀ r c r' c', r < n → r' < n → c < k → c' < k → ¬(r = r' ∧ c = c') →
      R (buildRectCell outerSize innerSize marginSize start (r0 + r) c)
        (buildRectCell outerSize innerSize marginSize start (r0 + r') c')) :
    List.Pairwise R (buildRectRows outerSize innerSize marginSize start r0
      (List.replicate n (List.replicate k e))) := by
  induction n generalizing r0 with
  | zero => simp [buildRectRows]
  | succ n ih =>
      rw [buildRectRows_replicate_succ]
      rw [List.pairwise_append]
      refine ⟨?_, ?_, ?_⟩
      · rw [List.pairwise_iff_getElem]
        intro i j hi hj hij
        simp only [List.length_map, List.length_range] at hi hj
        simp only [List.getElem_map, List.getElem_range]
        exact hR 0 i 0 j (Nat.succ_pos n) (Nat.succ_pos n) hi hj
          (by omega)
      · refine ih (r0 + 1) ?_
        intro r c r' c' hr hr' hc hc' hne
        have h1 : r0 + 1 + r = r0 + (r + 1) := by omega
        have h2 : r0 + 1 + r' = r0 + (r' + 1) := by omega
        rw [h1, h2]
        exact hR (r + 1) c (r' + 1) c' (by omega) (by omega) hc hc' (by omega)
      · intro a ha b hb
        simp only [List.mem_map, List.mem_range] at ha
        rw [mem_buildRectRows_replicate (r0 + 1)] at hb
        obtain ⟨c, hc, rfl⟩ := ha
        obtain ⟨r', c', hr', hc', rfl⟩ := hb
        have h2 : r0 + 1 + r' = r0 + (r' + 1) := by omega
        rw [h2]
        exact hR 0 c (r' + 1) c' (Nat.succ_pos n) (by omega) hc hc' (by omega)

/-! ## Rectangle geometry -/

/-- Two rectangles overlap when their intersection has positive area: the
horizontal and the vertical extents both intersect in an interval of positive
length. -/
def overlaps (a b : IRectPlotConfig) : Prop :=
  max a.x b.x < min (a.x + a.width) (b.x + b.width) ∧
    max a.y b.y < min (a.y + a.height) (b.y + b.height)

instance (a b : IRectPlotConfig) : Decidable (overlaps a b) := by
  unfold overlaps
  infer_instance

theorem not_overlaps_of_sep_x {a b : IRectPlotConfig} (h : a.x + a.width ≤ b.x) :
    ¬ overlaps a b := by
  rintro ⟨hx, -⟩
  have h1 : min (a.x + a.width) (b.x + b.width) ≤ a.x + a.width := min_le_left _ _
  have h2 : b.x ≤ max a.x b.x := le_max_right _ _
  omega

theorem not_overlaps_of_sep_y {a b : IRectPlotConfig} (h : a.y + a.height ≤ b.y) :
    ¬ overlaps a b := by
  rintro ⟨-, hy⟩
  have h1 : min (a.y + a.height) (b.y + b.height) ≤ a.y + a.height := min_le_left _ _
  have h2 : b.y ≤ max a.y b.y := le_max_right _ _
  omega

theorem overlaps_symm {a b : IRectPlotConfig} (h : overlaps a b) : overlaps b a := by
  obtain ⟨hx, hy⟩ := h
  exact ⟨by rw [max_comm, min_comm] at hx; exact hx, by rw [max_comm, min_comm] at hy; exact hy⟩

theorem buildRectCell_outer (outerSize innerSize marginSize : ISquareSize)
    (start : Option ILayoutCoords) (r c : ℕ) :
    (buildRectCell outerSize innerSize marginSize start r c).outer =
      { x := (match start with | some s => s.x | none => 0) + (c : ℤ) * outerSize.width
        y := (match start with | some s => s.y | none => 0) + (r : ℤ) * outerSize.height
        width := outerSize.width
        height := outerSize.height } := rfl

theorem buildRectCell_inner (outerSize innerSize marginSize : ISquareSize)
    (start : Option ILayoutCoords) (r c : ℕ) :
    (buildRectCell outerSize innerSize marginSize start r c).inner =
      { x := (match start with | some s => s.x | none => 0) + (c : ℤ) * outerSize.width +
          marginSize.width
        y := (match start with | some s => s.y | none => 0) + (r : ℤ) * outerSize.height +
          marginSize.height
        width := innerSize.width
        height := innerSize.height } := rfl

theorem cast_succ_mul_le {c k : ℕ} {w : ℤ} (h : c < k) (hw : 0 ≤ w) :
    (c : ℤ) * w + w ≤ (k : ℤ) * w := by
  have h1 : (c : ℤ) + 1 ≤ (k : ℤ) := by exact_mod_cast h
  nlinarith

/-- Distinct cells of one grid never overlap (their outer rectangles tile the
grid). -/
theorem buildRectCell_not_overlaps {outerSize innerSize marginSize : ISquareSize}
    {start : Option ILayoutCoords} {r c r' c' : ℕ}
    (hW : 0 ≤ outerSize.width) (hH : 0 ≤ outerSize.height)
    (hne : ¬(r = r' ∧ c = c')) :
    ¬ overlaps (buildRectCell outerSize innerSize marginSize start r c).outer
      (buildRectCell outerSize innerSize marginSize start r' c').outer := by
  rcases Nat.lt_trichotomy c c' with hc | hc | hc
  · refine not_overlaps_of_sep_x ?_
    rw [buildRectCell_outer, buildRectCell_outer]
    have := cast_succ_mul_le hc hW
    simp only
    omega
  · subst hc
    rcases Nat.lt_trichotomy r r' with hr | hr | hr
    · refine not_overlaps_of_sep_y ?_
      rw [buildRectCell_outer, buildRectCell_outer]
      have := cast_succ_mul_le hr hH
      simp only
      omega
    · exact absurd ⟨hr, rfl⟩ hne
    · intro hov
      refine not_overlaps_of_sep_y ?_ (overlaps_symm hov)
      rw [buildRectCell_outer, buildRectCell_outer]
      have := cast_succ_mul_le hr hH
      simp only
      omega
  · intro hov
    refine not_overlaps_of_sep_x ?_ (overlaps_symm hov)
    rw [buildRectCell_outer, buildRectCell_outer]
    have := cast_succ_mul_le hc hW
    simp only
    omega

end CalculatorLayout

namespace CalculatorLayout

/-! ## Evaluating `_buildRectMatrix` and `_calculateRemain` on the matrices
the layout generator passes them -/

/-- The width/height swap applied by `_buildRectMatrix` when `reverse` is
set. -/
def swapSize (s : ISquareSize) : ISquareSize := ⟨s.height, s.width⟩

theorem buildRectMatrix_replicate_false (sizing : IPaperLayoutSizing)
    (start : Option ILayoutCoords) {n k : ℕ} (hn : 0 < n) (hk : 0 < k) :
    buildRectMatrix (List.replicate n (List.replicate k emptyRectMatrixResult))
        sizing false start =
      .ok (buildRectRows sizing.outerSize sizing.innerSize sizing.marginSize start 0
        (List.replicate n (List.replicate k emptyRectMatrixResult))) := by
  obtain ⟨n, rfl⟩ := Nat.exists_eq_succ_of_ne_zero hn.ne'
  unfold buildRectMatrix validateRectMatrixArray
  simp only [List.replicate_succ]
  rw [if_neg (by simp [hk.ne'])]
  rfl

theorem buildRectMatrix_replicate_true (sizing : IPaperLayoutSizing)
    (start : Option ILayoutCoords) {n k : ℕ} (hn : 0 < n) (hk : 0 < k) :
    buildRectMatrix (List.replicate n (List.replicate k emptyRectMatrixResult))
        sizing true start =
      .ok (buildRectRows (swapSize sizing.outerSize) (swapSize sizing.innerSize)
        (swapSize sizing.marginSize) start 0
        (List.replicate n (List.replicate k emptyRectMatrixResult))) := by
  obtain ⟨n, rfl⟩ := Nat.exists_eq_succ_of_ne_zero hn.ne'
  unfold buildRectMatrix validateRectMatrixArray
  simp only [List.replicate_succ]
  rw [if_neg (by simp [hk.ne'])]
  rfl

theorem validateRemainXY_ok {x y : ℤ} (hx : 0 ≤ x) (hy : 0 ≤ y) :
    validateRemainXY x y = .ok () := by
  unfold validateRemainXY
  rw [if_neg (by omega), if_neg (by omega)]

/-- What `_calculateRemain` returns when the remainders are non-negative (as
they are on every reachable call): the vertical-strip rule first, then the
horizontal-strip rule, then no remainder, with each strip cross-fitted by
floor division. -/
theorem calculateRemain_eq (source container target margin : ISquareSize)
    (hrx : 0 ≤ source.width - container.width)
    (hry : 0 ≤ source.height - container.height)
    (hsw : 0 ≤ source.width) (hsh : 0 ≤ source.height)
    (hw : 0 < target.width + 2 * margin.width)
    (hh : 0 < target.height + 2 * margin.height) :
    calculateRemain source container target margin = .ok
      (if target.height ≤ source.width - container.width then
        some ⟨⟨source.height / (target.width + 2 * margin.width),
               (source.width - container.width) / (target.height + 2 * margin.height)⟩,
              ⟨container.width, 0⟩⟩
      else if target.width ≤ source.height - container.height then
        some ⟨⟨(source.height - container.height) / (target.width + 2 * margin.width),
               source.width / (target.height + 2 * margin.height)⟩,
              ⟨0, container.height⟩⟩
      else none) := by
  simp only [calculateRemain]
  rw [validateRemainXY_ok hrx hry, ok_bind]
  by_cases h2 : target.height ≤ source.width - container.width
  · rw [if_pos h2, if_pos h2,
      crossCut_eq_div ⟨source.width - container.width, source.height⟩ target margin hrx hsh hw hh]
    rfl
  · rw [if_neg h2, if_neg h2]
    by_cases h1 : target.width ≤ source.height - container.height
    · rw [if_pos h1, if_pos h1,
        crossCut_eq_div ⟨source.width, source.height - container.height⟩ target margin hsw hry hw hh]
      rfl
    · rw [if_neg h1, if_neg h1]
      rfl

end CalculatorLayout

namespace CalculatorLayout

/-! ## A closed-form model of the generated layout -/

theorem validateGrid_ok {g : IMatrixGrid} (hgr : 0 < g.row) (hgc : 0 < g.column) :
    validateGrid g = .ok () := by
  unfold validateGrid
  rw [if_neg (by omega), if_neg (by omega)]

/-- Closed form of the `ILayoutResult` produced by `_generateLayoutMatrix` on
a positive grid (proved equal to it in `generateLayoutMatrix_eq`): the main
grid laid out row-major from the origin, and the remainder, when a strip rule
fires and its cross-fitted grid is non-empty, laid out with swapped cell axes
from the strip's anchor. -/
def layoutResultModel (g : IMatrixGrid) (sz : IPaperLayoutSizing) : ILayoutResult :=
  let main := buildRectRows sz.outerSize sz.innerSize sz.marginSize none 0
    (List.replicate g.row.toNat (List.replicate g.column.toNat emptyRectMatrixResult))
  let remainX := sz.source.width - sz.outerSize.width * g.column
  let remainY := sz.source.height - sz.outerSize.height * g.row
  if sz.innerSize.height ≤ remainX then
    if 0 < sz.source.height / sz.outerSize.width ∧ 0 < remainX / sz.outerSize.height then
      { main := main
        remain := some (buildRectRows (swapSize sz.outerSize) (swapSize sz.innerSize)
          (swapSize sz.marginSize) (some ⟨sz.outerSize.width * g.column, 0⟩) 0
          (List.replicate (sz.source.height / sz.outerSize.width).toNat
            (List.replicate (remainX / sz.outerSize.height).toNat emptyRectMatrixResult))) }
    else { main := main, remain := none }
  else if sz.innerSize.width ≤ remainY then
    if 0 < remainY / sz.outerSize.width ∧ 0 < sz.source.width / sz.outerSize.height then
      { main := main
        remain := some (buildRectRows (swapSize sz.outerSize) (swapSize sz.innerSize)
          (swapSize sz.marginSize) (some ⟨0, sz.outerSize.height * g.row⟩) 0
          (List.replicate (remainY / sz.outerSize.width).toNat
            (List.replicate (sz.source.width / sz.outerSize.height).toNat
              emptyRectMatrixResult))) }
    else { main := main, remain := none }
  else { main := main, remain := none }

/-- `_generateLayoutMatrix` computes `layoutResultModel` whenever the grid is
positive, the sizing is coherent (outer = inner + twice margin, as `calculate`
always passes it), and the main container fits inside the source. -/
theorem generateLayoutMatrix_eq (g : IMatrixGrid) (sz : IPaperLayoutSizing)
    (hgr : 0 < g.row) (hgc : 0 < g.column)
    (hoW : 0 < sz.outerSize.width) (hoH : 0 < sz.outerSize.height)
    (houtw : sz.outerSize.width = sz.innerSize.width + 2 * sz.marginSize.width)
    (houth : sz.outerSize.height = sz.innerSize.height + 2 * sz.marginSize.height)
    (hrx : 0 ≤ sz.source.width - sz.outerSize.width * g.column)
    (hry : 0 ≤ sz.source.height - sz.outerSize.height * g.row)
    (hsw : 0 ≤ sz.source.width) (hsh : 0 ≤ sz.source.height) :
    generateLayoutMatrix g sz = .ok (layoutResultModel g sz) := by
  have hrow : 0 < g.row.toNat := by omega
  have hcol : 0 < g.column.toNat := by omega
  have hw : 0 < sz.innerSize.width + 2 * sz.marginSize.width := houtw ▸ hoW
  have hh : 0 < sz.innerSize.height + 2 * sz.marginSize.height := houth ▸ hoH
  have hcont : (mainContainer g sz).width = sz.outerSize.width * g.column := rfl
  have hcont2 : (mainContainer g sz).height = sz.outerSize.height * g.row := rfl
  simp only [generateLayoutMatrix]
  rw [validateGrid_ok hgr hgc, ok_bind,
    buildRectMatrix_replicate_false sz none hrow hcol, ok_bind,
    calculateRemain_eq sz.source (mainContainer g sz) sz.innerSize sz.marginSize
      (by rw [hcont]; exact hrx) (by rw [hcont2]; exact hry) hsw hsh hw hh,
    ok_bind]
  rw [hcont, hcont2, ← houtw, ← houth]
  by_cases hc2 : sz.innerSize.height ≤ sz.source.width - sz.outerSize.width * g.column
  · rw [if_pos hc2]
    by_cases hpos : 0 < sz.source.height / sz.outerSize.width ∧
        0 < (sz.source.width - sz.outerSize.width * g.column) / sz.outerSize.height
    · have h1 : 0 < (sz.source.height / sz.outerSize.width).toNat := by omega
      have h2 : 0 < ((sz.source.width - sz.outerSize.width * g.column) /
          sz.outerSize.height).toNat := by omega
      simp only [if_pos hpos, layoutResultModel, if_pos hc2]
      rw [buildRectMatrix_replicate_true sz
        (some ⟨sz.outerSize.width * g.column, 0⟩) h1 h2, ok_bind]
      rfl
    · simp only [if_neg hpos, layoutResultModel, if_pos hc2]
      rfl
  · rw [if_neg hc2]
    by_cases hc1 : sz.innerSize.width ≤ sz.source.height - sz.outerSize.height * g.row
    · rw [if_pos hc1]
      by_cases hpos : 0 < (sz.source.height - sz.outerSize.height * g.row) /
          sz.outerSize.width ∧ 0 < sz.source.width / sz.outerSize.height
      · have h1 : 0 < ((sz.source.height - sz.outerSize.height * g.row) /
            sz.outerSize.width).toNat := by omega
        have h2 : 0 < (sz.source.width / sz.outerSize.height).toNat := by omega
        simp only [if_pos hpos, layoutResultModel, if_neg hc2, if_pos hc1]
        rw [buildRectMatrix_replicate_true sz
          (some ⟨0, sz.outerSize.height * g.row⟩) h1 h2, ok_bind]
        rfl
      · simp only [if_neg hpos, layoutResultModel, if_neg hc2, if_pos hc1]
        rfl
    · rw [if_neg hc1]
      simp only [layoutResultModel, if_neg hc2, if_neg hc1]
      rfl

end CalculatorLayout

namespace CalculatorLayout

/-! ## The sizing facts guaranteed by constructor validation, and the
closed form of `calculate` -/

theorem calcSizing_source (s t m : ISquareSize) (o : Bool) :
    (calcSizing s t m o).source = s := rfl

theorem calcSizing_facts (s t m : ISquareSize) (o : Bool)
    (hv : validateInputs s t m = .ok ()) :
    0 < (calcSizing s t m o).outerSize.width ∧
    0 < (calcSizing s t m o).outerSize.height ∧
    (calcSizing s t m o).outerSize.width =
      (calcSizing s t m o).innerSize.width + 2 * (calcSizing s t m o).marginSize.width ∧
    (calcSizing s t m o).outerSize.height =
      (calcSizing s t m o).innerSize.height + 2 * (calcSizing s t m o).marginSize.height ∧
    0 < (calcSizing s t m o).innerSize.width ∧
    0 < (calcSizing s t m o).innerSize.height ∧
    0 ≤ (calcSizing s t m o).marginSize.width ∧
    0 ≤ (calcSizing s t m o).marginSize.height := by
  rw [validateInputs_ok_iff] at hv
  cases o <;> simp [calcSizing] <;> omega

/-- The grid fitted by `calculate`'s primary cut, in closed form: floor
division of the source axes by the orientation-adjusted outer cell. -/
theorem primaryCut_eq (s t m : ISquareSize) (o : Bool)
    (hv : validateInputs s t m = .ok ()) :
    primaryCut s t m o =
      .ok ⟨s.height / (calcSizing s t m o).outerSize.height,
           s.width / (calcSizing s t m o).outerSize.width⟩ := by
  rw [validateInputs_ok_iff] at hv
  cases o
  · show crossCut s t m = _
    rw [crossCut_eq_div s t m (by omega) (by omega) (by omega) (by omega)]
    rfl
  · show inlineCut s t m = _
    rw [inlineCut_eq_div s t m (by omega) (by omega) (by omega) (by omega)]
    rfl

theorem match_remain_length (r : Option (List IRectMatrixResult)) :
    (match r with | some l => l.length | none => 0) = (r.getD []).length := by
  cases r <;> rfl

/-- Closed form of a successful `calculate` run: on validated inputs whose
primary grid is non-empty, the result is the modelled layout together with
the recomputed total. -/
theorem calculate_eq_model (s t m : ISquareSize) (o : Bool)
    (hv : validateInputs s t m = .ok ())
    (hR : 0 < s.height / (calcSizing s t m o).outerSize.height)
    (hC : 0 < s.width / (calcSizing s t m o).outerSize.width) :
    calculate s t m o = .ok
      { main := (layoutResultModel
          ⟨s.height / (calcSizing s t m o).outerSize.height,
           s.width / (calcSizing s t m o).outerSize.width⟩ (calcSizing s t m o)).main,
        remain := (layoutResultModel
          ⟨s.height / (calcSizing s t m o).outerSize.height,
           s.width / (calcSizing s t m o).outerSize.width⟩ (calcSizing s t m o)).remain,
        total := (layoutResultModel
          ⟨s.height / (calcSizing s t m o).outerSize.height,
           s.width / (calcSizing s t m o).outerSize.width⟩ (calcSizing s t m o)).main.length +
          ((layoutResultModel
            ⟨s.height / (calcSizing s t m o).outerSize.height,
             s.width / (calcSizing s t m o).outerSize.width⟩
            (calcSizing s t m o)).remain.getD []).length } := by
  obtain ⟨hoW, hoH, houtw, houth, hiW, hiH, hmW, hmH⟩ := calcSizing_facts s t m o hv
  have hv' := (validateInputs_ok_iff s t m).mp hv
  have hrx : 0 ≤ (calcSizing s t m o).source.width -
      (calcSizing s t m o).outerSize.width *
        (s.width / (calcSizing s t m o).outerSize.width) := by
    have := ediv_mul_le_self (a := s.width) hoW
    rw [calcSizing_source]
    omega
  have hry : 0 ≤ (calcSizing s t m o).source.height -
      (calcSizing s t m o).outerSize.height *
        (s.height / (calcSizing s t m o).outerSize.height) := by
    have := ediv_mul_le_self (a := s.height) hoH
    rw [calcSizing_source]
    omega
  simp only [calculate]
  rw [primaryCut_eq s t m o hv]
  simp only [ok_bind]
  rw [validateGrid_ok (g := ⟨s.height / (calcSizing s t m o).outerSize.height,
    s.width / (calcSizing s t m o).outerSize.width⟩) hR hC]
  simp only [ok_bind]
  rw [generateLayoutMatrix_eq
    ⟨s.height / (calcSizing s t m o).outerSize.height,
     s.width / (calcSizing s t m o).outerSize.width⟩ (calcSizing s t m o)
    hR hC hoW hoH houtw houth hrx hry
    (by rw [calcSizing_source]; omega) (by rw [calcSizing_source]; omega)]
  simp only [ok_bind]
  rw [match_remain_length]
  rfl

/-- On validated inputs whose primary grid is empty on either axis,
`calculate` stops with the corresponding grid-validation error. -/
theorem calculate_error_of_empty (s t m : ISquareSize) (o : Bool)
    (hv : validateInputs s t m = .ok ())
    (h : s.height / (calcSizing s t m o).outerSize.height ≤ 0 ∨
      s.width / (calcSizing s t m o).outerSize.width ≤ 0) :
    calculate s t m o = .error
      (if s.height / (calcSizing s t m o).outerSize.height ≤ 0 then
        LayoutError.gridRowEmpty else LayoutError.gridColumnEmpty) := by
  simp only [calculate]
  rw [primaryCut_eq s t m o hv]
  simp only [ok_bind, validateGrid]
  by_cases h1 : s.height / (calcSizing s t m o).outerSize.height ≤ 0
  · rw [if_pos h1, if_pos h1]
    rfl
  · rw [if_neg h1, if_neg h1, if_pos (by omega : s.width /
      (calcSizing s t m o).outerSize.width ≤ 0)]
    rfl

end CalculatorLayout

namespace CalculatorLayout

/-! ## Accessors of the layout model -/

theorem layoutResultModel_main (g : IMatrixGrid) (sz : IPaperLayoutSizing) :
    (layoutResultModel g sz).main =
      buildRectRows sz.outerSize sz.innerSize sz.marginSize none 0
        (List.replicate g.row.toNat (List.replicate g.column.toNat
          emptyRectMatrixResult)) := by
  simp only [layoutResultModel]
  split_ifs <;> rfl

theorem layoutResultModel_remain (g : IMatrixGrid) (sz : IPaperLayoutSizing) :
    (layoutResultModel g sz).remain =
      (if sz.innerSize.height ≤ sz.source.width - sz.outerSize.width * g.column then
        if 0 < sz.source.height / sz.outerSize.width ∧
            0 < (sz.source.width - sz.outerSize.width * g.column) /
              sz.outerSize.height then
          some (buildRectRows (swapSize sz.outerSize) (swapSize sz.innerSize)
            (swapSize sz.marginSize) (some ⟨sz.outerSize.width * g.column, 0⟩) 0
            (List.replicate (sz.source.height / sz.outerSize.width).toNat
              (List.replicate ((sz.source.width - sz.outerSize.width * g.column) /
                sz.outerSize.height).toNat emptyRectMatrixResult)))
        else none
      else if sz.innerSize.width ≤ sz.source.height - sz.outerSize.height * g.row then
        if 0 < (sz.source.height - sz.outerSize.height * g.row) /
            sz.outerSize.width ∧ 0 < sz.source.width / sz.outerSize.height then
          some (buildRectRows (swapSize sz.outerSize) (swapSize sz.innerSize)
            (swapSize sz.marginSize) (some ⟨0, sz.outerSize.height * g.row⟩) 0
            (List.replicate ((sz.source.height - sz.outerSize.height * g.row) /
              sz.outerSize.width).toNat
              (List.replicate (sz.source.width / sz.outerSize.height).toNat
                emptyRectMatrixResult)))
        else none
      else none) := by
  simp only [layoutResultModel]
  split_ifs <;> rfl

/-! ## Claim theorems -/

/-- Claim C3: whenever `calculate` succeeds, the returned `total` equals the
length of the `main` placement sequence plus the length of the `remain`
placement sequence, an absent `remain` counting as zero; `total` is recomputed
from the two sequences, never an independent value. -/
theorem claim_C3 (s t m : ISquareSize) (o : Bool) (res : CalculationResult)
    (hc : calculate s t m o = .ok res) :
    res.total = res.main.length + (res.remain.getD []).length := by
  simp only [calculate] at hc
  rw [bind_eq_ok] at hc
  obtain ⟨g, -, hc⟩ := hc
  rw [bind_eq_ok] at hc
  obtain ⟨u, -, hc⟩ := hc
  rw [bind_eq_ok] at hc
  obtain ⟨l, -, hc⟩ := hc
  rw [pure_eq_ok] at hc
  cases hc
  rw [match_remain_length]

/-- Witness for C3: the invariant holds on the concrete scenario-B input. -/
theorem claim_C3_witness :
    ∃ res, calculate ⟨65, 100⟩ ⟨43, 12⟩ ⟨1, 1⟩ true = .ok res ∧
      res.total = res.main.length + (res.remain.getD []).length := by
  cases hc : calculate ⟨65, 100⟩ ⟨43, 12⟩ ⟨1, 1⟩ true with
  | error e =>
      have hok : (calculate ⟨65, 100⟩ ⟨43, 12⟩ ⟨1, 1⟩ true).isOk = true := by decide
      rw [hc] at hok
      cases hok
  | ok res => exact ⟨res, rfl, claim_C3 ⟨65, 100⟩ ⟨43, 12⟩ ⟨1, 1⟩ true res hc⟩

/-- Claim C6: on source 65x100, target 43x12, margin 1x1, inline orientation,
`calculate` succeeds with a primary grid of 7 rows and 1 column, 7 main
placements, 2 remain placements, and total 9. -/
theorem claim_C6 :
    inlineCut ⟨65, 100⟩ ⟨43, 12⟩ ⟨1, 1⟩ = .ok ⟨7, 1⟩ ∧
    (calculate ⟨65, 100⟩ ⟨43, 12⟩ ⟨1, 1⟩ true).map
        (fun r => (r.main.length, (r.remain.getD []).length, r.total)) =
      .ok (7, 2, 9) := by
  exact ⟨by decide, by decide⟩

/-- Claim C8: dimensions invalid in any of the specified ways (target plus
twice the margin exceeding the source on an axis, a non-positive source or
target dimension, or a negative margin) make construction of the calculator
fail with an error; the constructor runs only the three validators, so no
grid or layout is computed. -/
theorem claim_C8 (s t m : ISquareSize) (o : Bool)
    (h : t.width + 2 * m.width > s.width ∨
      t.height + 2 * m.height > s.height ∨
      s.width ≤ 0 ∨ s.height ≤ 0 ∨ t.width ≤ 0 ∨ t.height ≤ 0 ∨
      m.width < 0 ∨ m.height < 0) :
    ∃ e, newCalculatorLayoutClass s t m o = .error e := by
  cases hv : validateInputs s t m with
  | error e =>
      refine ⟨e, ?_⟩
      simp only [newCalculatorLayoutClass]
      rw [hv, error_bind]
  | ok u =>
      exfalso
      have hfacts := (validateInputs_ok_iff s t m).mp (by cases u; exact hv)
      rcases h with h | h | h | h | h | h | h | h <;> omega

/-- Witness for C8: a negative margin is rejected at construction. -/
theorem claim_C8_witness :
    ((⟨10, 10⟩ : ISquareSize).width ≤ 0 ∨ (10 : ℤ) > 10 ∨ True) ∧
    ∃ e, newCalculatorLayoutClass ⟨10, 10⟩ ⟨3, 3⟩ ⟨-1, 0⟩ true = .error e :=
  ⟨Or.inr (Or.inr trivial),
    claim_C8 ⟨10, 10⟩ ⟨3, 3⟩ ⟨-1, 0⟩ true (by decide)⟩

end CalculatorLayout

namespace CalculatorLayout

/-! ## Claim C2: the grid-fitter formulas -/

theorem floor_intCast_div {a b : ℤ} (hb : 0 < b) :
    ⌊(a : ℚ) / (b : ℚ)⌋ = a / b := by
  have h : ((b.toNat : ℕ) : ℤ) = b := Int.toNat_of_nonneg hb.le
  have hq : ((b.toNat : ℕ) : ℚ) = (b : ℚ) := by exact_mod_cast congrArg Int.cast h
  rw [← hq, Rat.floor_intCast_div_natCast a b.toNat, h]

/-- Claim C2: on positive source and target and non-negative margin, the
inline fitter computes column = floor(source.width / (target.width +
2*margin.width)) and row = floor(source.height / (target.height +
2*margin.height)); the cross fitter computes column = floor(source.width /
(target.height + 2*margin.height)) and row = floor(source.height /
(target.width + 2*margin.width)).  The floors are the floors of the exact
rational quotients. -/
theorem claim_C2 (s t m : ISquareSize)
    (hsw : 0 < s.width) (hsh : 0 < s.height)
    (htw : 0 < t.width) (hth : 0 < t.height)
    (hmw : 0 ≤ m.width) (hmh : 0 ≤ m.height) :
    inlineCut s t m = .ok
      ⟨⌊(s.height : ℚ) / ((t.height + 2 * m.height : ℤ) : ℚ)⌋,
       ⌊(s.width : ℚ) / ((t.width + 2 * m.width : ℤ) : ℚ)⌋⟩ ∧
    crossCut s t m = .ok
      ⟨⌊(s.height : ℚ) / ((t.width + 2 * m.width : ℤ) : ℚ)⌋,
       ⌊(s.width : ℚ) / ((t.height + 2 * m.height : ℤ) : ℚ)⌋⟩ := by
  have hw : 0 < t.width + 2 * m.width := by omega
  have hh : 0 < t.height + 2 * m.height := by omega
  rw [inlineCut_eq_div s t m hsw.le hsh.le hw hh,
    crossCut_eq_div s t m hsw.le hsh.le hw hh,
    floor_intCast_div hw, floor_intCast_div hh, floor_intCast_div hw,
    floor_intCast_div hh]
  exact ⟨rfl, rfl⟩

/-- Witness for C2 on the scenario-B input. -/
theorem claim_C2_witness :
    (0 < (65 : ℤ) ∧ 0 < (100 : ℤ) ∧ 0 < (43 : ℤ) ∧ 0 < (12 : ℤ) ∧
      0 ≤ (1 : ℤ) ∧ 0 ≤ (1 : ℤ)) ∧
    (inlineCut ⟨65, 100⟩ ⟨43, 12⟩ ⟨1, 1⟩ = .ok
      ⟨⌊((100 : ℤ) : ℚ) / (((12 : ℤ) + 2 * 1 : ℤ) : ℚ)⌋,
       ⌊((65 : ℤ) : ℚ) / (((43 : ℤ) + 2 * 1 : ℤ) : ℚ)⌋⟩ ∧
    crossCut ⟨65, 100⟩ ⟨43, 12⟩ ⟨1, 1⟩ = .ok
      ⟨⌊((100 : ℤ) : ℚ) / (((43 : ℤ) + 2 * 1 : ℤ) : ℚ)⌋,
       ⌊((65 : ℤ) : ℚ) / (((12 : ℤ) + 2 * 1 : ℤ) : ℚ)⌋⟩) :=
  ⟨⟨by decide, by decide, by decide, by decide, by decide, by decide⟩,
    claim_C2 ⟨65, 100⟩ ⟨43, 12⟩ ⟨1, 1⟩ (by decide) (by decide) (by decide)
      (by decide) (by decide) (by decide)⟩

/-! ## Claim C1: the remainder strip policy -/

/-- The remainder policy exactly as claim C1 states it, word for word: first,
if `source.height - mainContainer.height >= target.width`, pack the vertical
strip `{width: source.width - mainContainer.width, height: source.height}`
anchored at `{x: mainContainer.width, y: 0}`; otherwise, if `source.width -
mainContainer.width >= target.height`, pack the horizontal strip anchored at
`{x: 0, y: mainContainer.height}`; otherwise no remainder. -/
def claimedRemainPolicy (source container target margin : ISquareSize) :
    Except LayoutError (Option RemainResult) :=
  if target.width ≤ source.height - container.height then
    (crossCut ⟨source.width - container.width, source.height⟩ target margin).map
      (fun g => some ⟨g, ⟨container.width, 0⟩⟩)
  else if target.height ≤ source.width - container.width then
    (crossCut ⟨source.width, source.height - container.height⟩ target margin).map
      (fun g => some ⟨g, ⟨0, container.height⟩⟩)
  else .ok none

/-- Counterexample to claim C1 at the reachable scenario-B state (main
container 45x98 inside a 65x100 source, target 43x12, margin 1x1): the code
takes the vertical strip anchored at {45, 0} under its own first rule
`remainX >= target.height`, while the claim's rules, evaluated in the claimed
order, would pack the horizontal strip anchored at {0, 98}. -/
theorem claim_C1_counterexample :
    calculateRemain ⟨65, 100⟩ ⟨45, 98⟩ ⟨43, 12⟩ ⟨1, 1⟩ =
      .ok (some ⟨⟨2, 1⟩, ⟨45, 0⟩⟩) ∧
    claimedRemainPolicy ⟨65, 100⟩ ⟨45, 98⟩ ⟨43, 12⟩ ⟨1, 1⟩ =
      .ok (some ⟨⟨0, 4⟩, ⟨0, 98⟩⟩) ∧
    calculateRemain ⟨65, 100⟩ ⟨45, 98⟩ ⟨43, 12⟩ ⟨1, 1⟩ ≠
      claimedRemainPolicy ⟨65, 100⟩ ⟨45, 98⟩ ⟨43, 12⟩ ⟨1, 1⟩ := by
  exact ⟨by decide, by decide, by decide⟩

/-- Claim C1 as amended: the two strip rules are evaluated in the fixed order
with first match winning, but the first rule is `source.width -
mainContainer.width >= target.height`, packing the vertical strip
`{width: source.width - mainContainer.width, height: source.height}` anchored
at `{x: mainContainer.width, y: 0}`; the second is `source.height -
mainContainer.height >= target.width`, packing the horizontal strip
`{width: source.width, height: source.height - mainContainer.height}`
anchored at `{x: 0, y: mainContainer.height}`; otherwise null. -/
theorem claim_C1_amended (source container target margin : ISquareSize)
    (hrx : 0 ≤ source.width - container.width)
    (hry : 0 ≤ source.height - container.height) :
    calculateRemain source container target margin =
      if target.height ≤ source.width - container.width then
        (crossCut ⟨source.width - container.width, source.height⟩ target margin).map
          (fun g => some ⟨g, ⟨container.width, 0⟩⟩)
      else if target.width ≤ source.height - container.height then
        (crossCut ⟨source.width, source.height - container.height⟩ target margin).map
          (fun g => some ⟨g, ⟨0, container.height⟩⟩)
      else .ok none := by
  simp only [calculateRemain]
  rw [validateRemainXY_ok hrx hry, ok_bind]
  by_cases h2 : target.height ≤ source.width - container.width
  · rw [if_pos h2, if_pos h2]
    cases hcc : crossCut ⟨source.width - container.width, source.height⟩ target margin with
    | error e => rfl
    | ok g0 => rfl
  · rw [if_neg h2, if_neg h2]
    by_cases h1 : target.width ≤ source.height - container.height
    · rw [if_pos h1, if_pos h1]
      cases hcc : crossCut ⟨source.width, source.height - container.height⟩ target margin with
      | error e => rfl
      | ok g0 => rfl
    · rw [if_neg h1, if_neg h1]
      rfl

/-- Witness for the amended C1 at the scenario-B state. -/
theorem claim_C1_amended_witness :
    (0 ≤ (65 : ℤ) - 45 ∧ 0 ≤ (100 : ℤ) - 98) ∧
    calculateRemain ⟨65, 100⟩ ⟨45, 98⟩ ⟨43, 12⟩ ⟨1, 1⟩ =
      (if (12 : ℤ) ≤ 65 - 45 then
        (crossCut ⟨65 - 45, 100⟩ ⟨43, 12⟩ ⟨1, 1⟩).map
          (fun g => some ⟨g, ⟨45, 0⟩⟩)
      else if (43 : ℤ) ≤ 100 - 98 then
        (crossCut ⟨65, 100 - 98⟩ ⟨43, 12⟩ ⟨1, 1⟩).map
          (fun g => some ⟨g, ⟨0, 98⟩⟩)
      else .ok none) :=
  ⟨⟨by decide, by decide⟩,
    claim_C1_amended ⟨65, 100⟩ ⟨45, 98⟩ ⟨43, 12⟩ ⟨1, 1⟩ (by decide) (by decide)⟩

end CalculatorLayout

namespace CalculatorLayout

/-! ## Claim C9: the exact-fit boundary -/

/-- Claim C9: when target plus twice the margin equals the source exactly on
both axes, inline `calculate` fits a primary grid of exactly one row and one
column, places one main rectangle, and produces no remain placements (the
`remain` key is absent, i.e. the remain sequence is empty). -/
theorem claim_C9 (s t m : ISquareSize)
    (htw : 0 < t.width) (hth : 0 < t.height)
    (hmw : 0 ≤ m.width) (hmh : 0 ≤ m.height)
    (hw : t.width + 2 * m.width = s.width)
    (hh : t.height + 2 * m.height = s.height) :
    inlineCut s t m = .ok ⟨1, 1⟩ ∧
    ∃ res, calculate s t m true = .ok res ∧
      res.main.length = 1 ∧ res.remain = none ∧ res.total = 1 := by
  have hsw : 0 < s.width := by omega
  have hsh : 0 < s.height := by omega
  have hv : validateInputs s t m = .ok () :=
    (validateInputs_ok_iff s t m).mpr (by omega)
  have hoW : (calcSizing s t m true).outerSize.width = s.width := hw
  have hoH : (calcSizing s t m true).outerSize.height = s.height := hh
  have h1 : s.height / (calcSizing s t m true).outerSize.height = 1 := by
    rw [hoH]
    exact Int.ediv_self (by omega)
  have h2 : s.width / (calcSizing s t m true).outerSize.width = 1 := by
    rw [hoW]
    exact Int.ediv_self (by omega)
  have hm := calculate_eq_model s t m true hv (by rw [h1]; exact one_pos)
    (by rw [h2]; exact one_pos)
  rw [h1, h2] at hm
  have hremain : (layoutResultModel ⟨1, 1⟩ (calcSizing s t m true)).remain = none := by
    rw [layoutResultModel_remain]
    have e1 : (calcSizing s t m true).source.width -
        (calcSizing s t m true).outerSize.width * (⟨1, 1⟩ : IMatrixGrid).column = 0 := by
      rw [calcSizing_source, hoW]
      ring
    have e2 : (calcSizing s t m true).source.height -
        (calcSizing s t m true).outerSize.height * (⟨1, 1⟩ : IMatrixGrid).row = 0 := by
      rw [calcSizing_source, hoH]
      ring
    rw [e1, e2]
    have hiH : (calcSizing s t m true).innerSize.height = t.height := rfl
    have hiW : (calcSizing s t m true).innerSize.width = t.width := rfl
    rw [hiH, hiW, if_neg (by omega), if_neg (by omega)]
  have hmain : (layoutResultModel ⟨1, 1⟩ (calcSizing s t m true)).main.length = 1 := by
    rw [layoutResultModel_main, length_buildRectRows_replicate]
    rfl
  refine ⟨?_, ⟨_, hm, ?_, ?_, ?_⟩⟩
  · rw [inlineCut_eq_div s t m hsw.le hsh.le (by omega) (by omega), hw, hh,
      Int.ediv_self (by omega : s.height ≠ 0), Int.ediv_self (by omega : s.width ≠ 0)]
  · exact hmain
  · exact hremain
  · show (layoutResultModel ⟨1, 1⟩ (calcSizing s t m true)).main.length +
      ((layoutResultModel ⟨1, 1⟩ (calcSizing s t m true)).remain.getD []).length = 1
    rw [hmain, hremain]
    rfl

/-- Witness for C9: a 10x10 source, 8x8 target, 1x1 margin. -/
theorem claim_C9_witness :
    (0 < (8 : ℤ) ∧ 0 ≤ (1 : ℤ) ∧ (8 : ℤ) + 2 * 1 = 10) ∧
    (inlineCut ⟨10, 10⟩ ⟨8, 8⟩ ⟨1, 1⟩ = .ok ⟨1, 1⟩ ∧
    ∃ res, calculate ⟨10, 10⟩ ⟨8, 8⟩ ⟨1, 1⟩ true = .ok res ∧
      res.main.length = 1 ∧ res.remain = none ∧ res.total = 1) :=
  ⟨⟨by decide, by decide, by decide⟩,
    claim_C9 ⟨10, 10⟩ ⟨8, 8⟩ ⟨1, 1⟩ (by decide) (by decide) (by decide) (by decide)
      (by decide) (by decide)⟩

end CalculatorLayout

namespace CalculatorLayout

/-! ## The shape of every successful `calculate` run -/

/-- Every successful run of `calculate` on validated inputs has a positive
primary grid and produces exactly the modelled layout. -/
theorem calculate_ok_shape (s t m : ISquareSize) (o : Bool)
    (res : CalculationResult)
    (hv : validateInputs s t m = .ok ()) (hc : calculate s t m o = .ok res) :
    0 < s.height / (calcSizing s t m o).outerSize.height ∧
    0 < s.width / (calcSizing s t m o).outerSize.width ∧
    res.main = (layoutResultModel
      ⟨s.height / (calcSizing s t m o).outerSize.height,
       s.width / (calcSizing s t m o).outerSize.width⟩ (calcSizing s t m o)).main ∧
    res.remain = (layoutResultModel
      ⟨s.height / (calcSizing s t m o).outerSize.height,
       s.width / (calcSizing s t m o).outerSize.width⟩ (calcSizing s t m o)).remain := by
  by_cases hR : 0 < s.height / (calcSizing s t m o).outerSize.height
  · by_cases hC : 0 < s.width / (calcSizing s t m o).outerSize.width
    · rw [calculate_eq_model s t m o hv hR hC] at hc
      cases hc
      exact ⟨hR, hC, rfl, rfl⟩
    · rw [calculate_error_of_empty s t m o hv (Or.inr (by omega))] at hc
      exact Except.noConfusion hc
  · rw [calculate_error_of_empty s t m o hv (Or.inl (by omega))] at hc
    exact Except.noConfusion hc

/-! ## Claim C4: inner/outer geometry of every placement -/

/-- Counterexample to claim C4 at the reachable scenario-A input (source
79x109, target 22x32, margin 2x3, inline): the claim's equalities
`inner.x = outer.x + margin.width`, `inner.y = outer.y + margin.height`,
`inner dims = target dims`, `outer dims = target + 2*margin` fail on the
remain placements, whose cells are laid out with width and height swapped. -/
theorem claim_C4_counterexample :
    ¬ ∀ p ∈ (((calculate ⟨79, 109⟩ ⟨22, 32⟩ ⟨2, 3⟩ true).toOption.map
        (fun r => r.main ++ r.remain.getD [])).getD []),
      p.inner.x = p.outer.x + 2 ∧ p.inner.y = p.outer.y + 3 ∧
      p.inner.width = 22 ∧ p.inner.height = 32 ∧
      p.outer.width = 22 + 2 * 2 ∧ p.outer.height = 32 + 2 * 3 := by decide

/-- Claim C4 as amended: for every valid input and every placement returned
by `calculate`, the inner rectangle sits at the cell's margin offset inside
the outer rectangle and has the cell's target dimensions, where main cells
use the orientation-adjusted target and margin (inline: as the original claim
states; cross: width and height swapped), and remain cells use the opposite
orientation (swapped again relative to main). -/
theorem claim_C4_amended (s t m : ISquareSize) (o : Bool)
    (res : CalculationResult)
    (hv : validateInputs s t m = .ok ()) (hc : calculate s t m o = .ok res) :
    (∀ p ∈ res.main,
      p.inner.x = p.outer.x + (calcSizing s t m o).marginSize.width ∧
      p.inner.y = p.outer.y + (calcSizing s t m o).marginSize.height ∧
      p.inner.width = (calcSizing s t m o).innerSize.width ∧
      p.inner.height = (calcSizing s t m o).innerSize.height ∧
      p.outer.width = (calcSizing s t m o).innerSize.width +
        2 * (calcSizing s t m o).marginSize.width ∧
      p.outer.height = (calcSizing s t m o).innerSize.height +
        2 * (calcSizing s t m o).marginSize.height) ∧
    (∀ p ∈ res.remain.getD [],
      p.inner.x = p.outer.x + (calcSizing s t m o).marginSize.height ∧
      p.inner.y = p.outer.y + (calcSizing s t m o).marginSize.width ∧
      p.inner.width = (calcSizing s t m o).innerSize.height ∧
      p.inner.height = (calcSizing s t m o).innerSize.width ∧
      p.outer.width = (calcSizing s t m o).innerSize.height +
        2 * (calcSizing s t m o).marginSize.height ∧
      p.outer.height = (calcSizing s t m o).innerSize.width +
        2 * (calcSizing s t m o).marginSize.width) := by
  obtain ⟨hoW, hoH, houtw, houth, hiW, hiH, hmW, hmH⟩ := calcSizing_facts s t m o hv
  obtain ⟨hR, hC, hmain, hremain⟩ := calculate_ok_shape s t m o res hv hc
  constructor
  · intro p hp
    rw [hmain, layoutResultModel_main,
      mem_buildRectRows_replicate 0] at hp
    obtain ⟨r, c, -, -, rfl⟩ := hp
    exact ⟨rfl, rfl, rfl, rfl, houtw, houth⟩
  · intro p hp
    rw [hremain, layoutResultModel_remain] at hp
    split_ifs at hp <;>
      simp only [Option.getD_some, Option.getD_none, List.not_mem_nil] at hp
    · rw [mem_buildRectRows_replicate 0] at hp
      obtain ⟨r, c, -, -, rfl⟩ := hp
      exact ⟨rfl, rfl, rfl, rfl, houth, houtw⟩
    · rw [mem_buildRectRows_replicate 0] at hp
      obtain ⟨r, c, -, -, rfl⟩ := hp
      exact ⟨rfl, rfl, rfl, rfl, houth, houtw⟩

/-- Witness for the amended C4 on the scenario-A input. -/
theorem claim_C4_amended_witness :
    ∃ res, calculate ⟨79, 109⟩ ⟨22, 32⟩ ⟨2, 3⟩ true = .ok res ∧
      (∀ p ∈ res.main, p.inner.x = p.outer.x + 2 ∧ p.inner.width = 22) ∧
      (∀ p ∈ res.remain.getD [], p.inner.x = p.outer.x + 3 ∧ p.inner.width = 32) := by
  cases hc : calculate ⟨79, 109⟩ ⟨22, 32⟩ ⟨2, 3⟩ true with
  | error e =>
      have hok : (calculate ⟨79, 109⟩ ⟨22, 32⟩ ⟨2, 3⟩ true).isOk = true := by decide
      rw [hc] at hok
      cases hok
  | ok res =>
      have h := claim_C4_amended ⟨79, 109⟩ ⟨22, 32⟩ ⟨2, 3⟩ true res (by decide) hc
      refine ⟨res, rfl, fun p hp => ?_, fun p hp => ?_⟩
      · obtain ⟨h1, -, -, -, -, -⟩ := h.1 p hp
        obtain ⟨-, -, h3, -, -, -⟩ := h.1 p hp
        exact ⟨h1, h3⟩
      · obtain ⟨h1, -, h3, -, -, -⟩ := h.2 p hp
        exact ⟨h1, h3⟩

end CalculatorLayout

namespace CalculatorLayout

/-! ## Claim C7: when `calculate` raises the empty-grid errors -/

/-- Claim C7: on a validated instance, `calculate` throws an empty-grid error
exactly when the primary fitted grid has `row <= 0` or `column <= 0` (and
any error it throws is one of the two empty-grid errors); a secondary
(leftover-strip) grid with non-positive rows or columns does not raise an
error but results in a layout with no remainder. -/
theorem claim_C7 (s t m : ISquareSize) (o : Bool) (g : IMatrixGrid)
    (hv : validateInputs s t m = .ok ())
    (hg : primaryCut s t m o = .ok g) :
    ((∃ e, calculate s t m o = .error e ∧
        (e = LayoutError.gridRowEmpty ∨ e = LayoutError.gridColumnEmpty)) ↔
      (g.row ≤ 0 ∨ g.column ≤ 0)) ∧
    (∀ e, calculate s t m o = .error e →
      e = LayoutError.gridRowEmpty ∨ e = LayoutError.gridColumnEmpty) ∧
    (∀ rm : RemainResult, 0 < g.row → 0 < g.column →
      calculateRemain s (mainContainer g (calcSizing s t m o))
        (calcSizing s t m o).innerSize (calcSizing s t m o).marginSize =
        .ok (some rm) →
      rm.grid.row ≤ 0 ∨ rm.grid.column ≤ 0 →
      ∃ res, calculate s t m o = .ok res ∧ res.remain = none) := by
  obtain ⟨hoW, hoH, houtw, houth, hiW, hiH, hmW, hmH⟩ := calcSizing_facts s t m o hv
  have hpc := primaryCut_eq s t m o hv
  rw [hg] at hpc
  have hgeq : g = ⟨s.height / (calcSizing s t m o).outerSize.height,
      s.width / (calcSizing s t m o).outerSize.width⟩ := Except.ok.inj hpc
  subst hgeq
  have hgrow : (⟨s.height / (calcSizing s t m o).outerSize.height,
      s.width / (calcSizing s t m o).outerSize.width⟩ : IMatrixGrid).row =
      s.height / (calcSizing s t m o).outerSize.height := rfl
  have hgcol : (⟨s.height / (calcSizing s t m o).outerSize.height,
      s.width / (calcSizing s t m o).outerSize.width⟩ : IMatrixGrid).column =
      s.width / (calcSizing s t m o).outerSize.width := rfl
  refine ⟨⟨?_, ?_⟩, ?_, ?_⟩
  · rintro ⟨e, he, -⟩
    rw [hgrow, hgcol]
    by_contra hng
    push_neg at hng
    rw [calculate_eq_model s t m o hv (by omega) (by omega)] at he
    exact Except.noConfusion he
  · intro hRC
    rw [hgrow, hgcol] at hRC
    refine ⟨_, calculate_error_of_empty s t m o hv hRC, ?_⟩
    split_ifs <;> simp
  · intro e he
    by_cases hR : 0 < s.height / (calcSizing s t m o).outerSize.height
    · by_cases hC : 0 < s.width / (calcSizing s t m o).outerSize.width
      · rw [calculate_eq_model s t m o hv hR hC] at he
        exact Except.noConfusion he
      · rw [calculate_error_of_empty s t m o hv (Or.inr (by omega))] at he
        have := Except.error.inj he
        subst this
        split_ifs <;> simp
    · rw [calculate_error_of_empty s t m o hv (Or.inl (by omega))] at he
      have := Except.error.inj he
      subst this
      split_ifs <;> simp
  · intro rm hr hc hcr hempty
    rw [hgrow] at hr
    rw [hgcol] at hc
    refine ⟨_, calculate_eq_model s t m o hv hr hc, ?_⟩
    have hcontW : (mainContainer ⟨s.height / (calcSizing s t m o).outerSize.height,
        s.width / (calcSizing s t m o).outerSize.width⟩ (calcSizing s t m o)).width =
        (calcSizing s t m o).outerSize.width *
          (s.width / (calcSizing s t m o).outerSize.width) := rfl
    have hcontH : (mainContainer ⟨s.height / (calcSizing s t m o).outerSize.height,
        s.width / (calcSizing s t m o).outerSize.width⟩ (calcSizing s t m o)).height =
        (calcSizing s t m o).outerSize.height *
          (s.height / (calcSizing s t m o).outerSize.height) := rfl
    have hv' := (validateInputs_ok_iff s t m).mp hv
    rw [calculateRemain_eq s
      (mainContainer ⟨s.height / (calcSizing s t m o).outerSize.height,
        s.width / (calcSizing s t m o).outerSize.width⟩ (calcSizing s t m o))
      (calcSizing s t m o).innerSize (calcSizing s t m o).marginSize
      (by rw [hcontW]; have := ediv_mul_le_self (a := s.width) hoW; omega)
      (by rw [hcontH]; have := ediv_mul_le_self (a := s.height) hoH; omega)
      (by omega) (by omega) (houtw ▸ hoW) (houth ▸ hoH)] at hcr
    rw [hcontW, hcontH, ← houtw, ← houth] at hcr
    have hok := Except.ok.inj hcr
    show (layoutResultModel _ _).remain = none
    rw [layoutResultModel_remain, calcSizing_source, hgrow, hgcol]
    by_cases hc2 : (calcSizing s t m o).innerSize.height ≤
        s.width - (calcSizing s t m o).outerSize.width *
          (s.width / (calcSizing s t m o).outerSize.width)
    · rw [if_pos hc2] at hok ⊢
      obtain rfl := Option.some.inj hok
      have hre : s.height / (calcSizing s t m o).outerSize.width ≤ 0 ∨
          (s.width - (calcSizing s t m o).outerSize.width *
            (s.width / (calcSizing s t m o).outerSize.width)) /
            (calcSizing s t m o).outerSize.height ≤ 0 := hempty
      rw [if_neg (by omega)]
    · rw [if_neg hc2] at hok ⊢
      by_cases hc1 : (calcSizing s t m o).innerSize.width ≤
          s.height - (calcSizing s t m o).outerSize.height *
            (s.height / (calcSizing s t m o).outerSize.height)
      · rw [if_pos hc1] at hok ⊢
        obtain rfl := Option.some.inj hok
        have hre : (s.height - (calcSizing s t m o).outerSize.height *
            (s.height / (calcSizing s t m o).outerSize.height)) /
            (calcSizing s t m o).outerSize.width ≤ 0 ∨
            s.width / (calcSizing s t m o).outerSize.height ≤ 0 := hempty
        rw [if_neg (by omega)]
      · rw [if_neg hc1] at hok
        exact Option.noConfusion hok

/-- Witness for C7: a cross-orientation instance whose validated inputs fit
inline but not crosswise, so the primary grid has zero columns and
`calculate` raises the empty-grid error. -/
theorem claim_C7_witness :
    ∃ e, calculate ⟨10, 30⟩ ⟨8, 25⟩ ⟨0, 0⟩ false = .error e ∧
      (e = LayoutError.gridRowEmpty ∨ e = LayoutError.gridColumnEmpty) :=
  ((claim_C7 ⟨10, 30⟩ ⟨8, 25⟩ ⟨0, 0⟩ false ⟨3, 0⟩ (by decide) (by decide)).1).mpr
    (by decide)

end CalculatorLayout

namespace CalculatorLayout

/-! ## Claim C10: every outer rectangle stays inside the source -/

theorem toNat_cast_le_of_lt {c : ℕ} {q w : ℤ} (hclt : c < q.toNat) (hw : 0 ≤ w)
    (hq : 0 ≤ q) : (c : ℤ) * w + w ≤ q * w := by
  have h1 := cast_succ_mul_le hclt hw
  rwa [Int.toNat_of_nonneg hq] at h1

theorem swapSize_width (a : ISquareSize) : (swapSize a).width = a.height := rfl

theorem swapSize_height (a : ISquareSize) : (swapSize a).height = a.width := rfl

/-- Every outer rectangle of the modelled layout (main and remain) lies
inside the source bounds, provided the grid is non-negative and the main
container fits the source. -/
theorem layoutResultModel_outer_bounds (g : IMatrixGrid) (sz : IPaperLayoutSizing)
    (hoW : 0 < sz.outerSize.width) (hoH : 0 < sz.outerSize.height)
    (hgr : 0 ≤ g.row) (hgc : 0 ≤ g.column)
    (hCle : sz.outerSize.width * g.column ≤ sz.source.width)
    (hRle : sz.outerSize.height * g.row ≤ sz.source.height) :
    ∀ p ∈ (layoutResultModel g sz).main ++ (layoutResultModel g sz).remain.getD [],
      0 ≤ p.outer.x ∧ 0 ≤ p.outer.y ∧
      p.outer.x + p.outer.width ≤ sz.source.width ∧
      p.outer.y + p.outer.height ≤ sz.source.height := by
  intro p hp
  rw [List.mem_append] at hp
  rcases hp with hp | hp
  · rw [layoutResultModel_main, mem_buildRectRows_replicate 0] at hp
    obtain ⟨r, c, hrlt, hclt, rfl⟩ := hp
    refine ⟨?_, ?_, ?_, ?_⟩
    · show 0 ≤ 0 + (c : ℤ) * sz.outerSize.width
      have := mul_nonneg (Int.ofNat_nonneg c) hoW.le
      linarith
    · show 0 ≤ 0 + ((0 + r : ℕ) : ℤ) * sz.outerSize.height
      have := mul_nonneg (Int.ofNat_nonneg (0 + r)) hoH.le
      linarith
    · show 0 + (c : ℤ) * sz.outerSize.width + sz.outerSize.width ≤ sz.source.width
      have h1 := toNat_cast_le_of_lt hclt hoW.le hgc
      have h2 : g.column * sz.outerSize.width = sz.outerSize.width * g.column :=
        mul_comm _ _
      linarith
    · show 0 + ((0 + r : ℕ) : ℤ) * sz.outerSize.height + sz.outerSize.height ≤
        sz.source.height
      have h1 := toNat_cast_le_of_lt
        (show 0 + r < g.row.toNat by omega) hoH.le hgr
      have h2 : g.row * sz.outerSize.height = sz.outerSize.height * g.row :=
        mul_comm _ _
      linarith
  · rw [layoutResultModel_remain] at hp
    split_ifs at hp with hc2 hpos2 hc1 hpos1
    · simp only [Option.getD_some] at hp
      rw [mem_buildRectRows_replicate 0] at hp
      obtain ⟨r, c, hrlt, hclt, rfl⟩ := hp
      obtain ⟨hq1, hq2⟩ := hpos2
      have hb1 := ediv_mul_le_self
        (a := sz.source.width - sz.outerSize.width * g.column) hoH
      have hb2 := ediv_mul_le_self (a := sz.source.height) hoW
      have hcw := mul_nonneg hoW.le hgc
      refine ⟨?_, ?_, ?_, ?_⟩
      · show 0 ≤ sz.outerSize.width * g.column + (c : ℤ) * (swapSize sz.outerSize).width
        rw [swapSize_width]
        have := mul_nonneg (Int.ofNat_nonneg c) hoH.le
        linarith
      · show 0 ≤ 0 + ((0 + r : ℕ) : ℤ) * (swapSize sz.outerSize).height
        rw [swapSize_height]
        have := mul_nonneg (Int.ofNat_nonneg (0 + r)) hoW.le
        linarith
      · show sz.outerSize.width * g.column + (c : ℤ) * (swapSize sz.outerSize).width +
          (swapSize sz.outerSize).width ≤ sz.source.width
        rw [swapSize_width]
        have h1 := toNat_cast_le_of_lt hclt hoH.le hq2.le
        have h2 : (sz.source.width - sz.outerSize.width * g.column) /
            sz.outerSize.height * sz.outerSize.height =
            sz.outerSize.height * ((sz.source.width - sz.outerSize.width * g.column) /
              sz.outerSize.height) := mul_comm _ _
        linarith
      · show 0 + ((0 + r : ℕ) : ℤ) * (swapSize sz.outerSize).height +
          (swapSize sz.outerSize).height ≤ sz.source.height
        rw [swapSize_height]
        have h1 := toNat_cast_le_of_lt
          (show 0 + r < (sz.source.height / sz.outerSize.width).toNat by omega)
          hoW.le hq1.le
        have h2 : sz.source.height / sz.outerSize.width * sz.outerSize.width =
            sz.outerSize.width * (sz.source.height / sz.outerSize.width) := mul_comm _ _
        linarith
    · simp only [Option.getD_none] at hp
      exact absurd hp (List.not_mem_nil p)
    · simp only [Option.getD_some] at hp
      rw [mem_buildRectRows_replicate 0] at hp
      obtain ⟨r, c, hrlt, hclt, rfl⟩ := hp
      obtain ⟨hq1, hq2⟩ := hpos1
      have hb1 := ediv_mul_le_self
        (a := sz.source.height - sz.outerSize.height * g.row) hoW
      have hb2 := ediv_mul_le_self (a := sz.source.width) hoH
      have hch := mul_nonneg hoH.le hgr
      refine ⟨?_, ?_, ?_, ?_⟩
      · show 0 ≤ 0 + (c : ℤ) * (swapSize sz.outerSize).width
        rw [swapSize_width]
        have := mul_nonneg (Int.ofNat_nonneg c) hoH.le
        linarith
      · show 0 ≤ sz.outerSize.height * g.row +
          ((0 + r : ℕ) : ℤ) * (swapSize sz.outerSize).height
        rw [swapSize_height]
        have := mul_nonneg (Int.ofNat_nonneg (0 + r)) hoW.le
        linarith
      · show 0 + (c : ℤ) * (swapSize sz.outerSize).width +
          (swapSize sz.outerSize).width ≤ sz.source.width
        rw [swapSize_width]
        have h1 := toNat_cast_le_of_lt hclt hoH.le hq2.le
        have h2 : sz.source.width / sz.outerSize.height * sz.outerSize.height =
            sz.outerSize.height * (sz.source.width / sz.outerSize.height) := mul_comm _ _
        linarith
      · show sz.outerSize.height * g.row +
          ((0 + r : ℕ) : ℤ) * (swapSize sz.outerSize).height +
          (swapSize sz.outerSize).height ≤ sz.source.height
        rw [swapSize_height]
        have h1 := toNat_cast_le_of_lt
          (show 0 + r < ((sz.source.height - sz.outerSize.height * g.row) /
            sz.outerSize.width).toNat by omega) hoW.le hq1.le
        have h2 : (sz.source.height - sz.outerSize.height * g.row) /
            sz.outerSize.width * sz.outerSize.width =
            sz.outerSize.width * ((sz.source.height - sz.outerSize.height * g.row) /
              sz.outerSize.width) := mul_comm _ _
        linarith
    · simp only [Option.getD_none] at hp
      exact absurd hp (List.not_mem_nil p)
    · simp only [Option.getD_none] at hp
      exact absurd hp (List.not_mem_nil p)

/-- Claim C10: for every valid input on which `calculate` succeeds, every
returned placement's outer rectangle lies entirely within the source bounds,
for both main and remain placements. -/
theorem claim_C10 (s t m : ISquareSize) (o : Bool) (res : CalculationResult)
    (hv : validateInputs s t m = .ok ()) (hc : calculate s t m o = .ok res) :
    ∀ p ∈ res.main ++ res.remain.getD [],
      0 ≤ p.outer.x ∧ 0 ≤ p.outer.y ∧
      p.outer.x + p.outer.width ≤ s.width ∧
      p.outer.y + p.outer.height ≤ s.height := by
  obtain ⟨hoW, hoH, houtw, houth, hiW, hiH, hmW, hmH⟩ := calcSizing_facts s t m o hv
  obtain ⟨hR, hC, hmain, hremain⟩ := calculate_ok_shape s t m o res hv hc
  rw [hmain, hremain]
  exact layoutResultModel_outer_bounds
    ⟨s.height / (calcSizing s t m o).outerSize.height,
     s.width / (calcSizing s t m o).outerSize.width⟩ (calcSizing s t m o)
    hoW hoH (by exact hR.le) (by exact hC.le)
    (ediv_mul_le_self hoW) (ediv_mul_le_self hoH)

/-- Witness for C10 on the scenario-A input. -/
theorem claim_C10_witness :
    ∃ res, calculate ⟨79, 109⟩ ⟨22, 32⟩ ⟨2, 3⟩ true = .ok res ∧
      ∀ p ∈ res.main ++ res.remain.getD [],
        0 ≤ p.outer.x ∧ 0 ≤ p.outer.y ∧
        p.outer.x + p.outer.width ≤ (79 : ℤ) ∧
        p.outer.y + p.outer.height ≤ (109 : ℤ) := by
  cases hc : calculate ⟨79, 109⟩ ⟨22, 32⟩ ⟨2, 3⟩ true with
  | error e =>
      have hok : (calculate ⟨79, 109⟩ ⟨22, 32⟩ ⟨2, 3⟩ true).isOk = true := by decide
      rw [hc] at hok
      cases hok
  | ok res =>
      exact ⟨res, rfl, claim_C10 ⟨79, 109⟩ ⟨22, 32⟩ ⟨2, 3⟩ true res (by decide) hc⟩

end CalculatorLayout

namespace CalculatorLayout

/-! ## Claim C5: no two outer rectangles overlap -/

/-- In the modelled layout, outer rectangles are pairwise non-overlapping
within the main grid, within the remain grid, and across the two grids. -/
theorem layoutResultModel_no_overlap (g : IMatrixGrid) (sz : IPaperLayoutSizing)
    (hoW : 0 < sz.outerSize.width) (hoH : 0 < sz.outerSize.height)
    (hgr : 0 ≤ g.row) (hgc : 0 ≤ g.column) :
    List.Pairwise (fun p q => ¬ overlaps p.outer q.outer)
      (layoutResultModel g sz).main ∧
    List.Pairwise (fun p q => ¬ overlaps p.outer q.outer)
      ((layoutResultModel g sz).remain.getD []) ∧
    ∀ p ∈ (layoutResultModel g sz).main,
      ∀ q ∈ (layoutResultModel g sz).remain.getD [],
      ¬ overlaps p.outer q.outer := by
  refine ⟨?_, ?_, ?_⟩
  · rw [layoutResultModel_main]
    refine pairwise_buildRectRows_replicate 0 ?_
    intro r c r' c' hr hr' hcx hcx' hne
    exact buildRectCell_not_overlaps hoW.le hoH.le
      (fun h => hne ⟨by omega, h.2⟩)
  · rw [layoutResultModel_remain]
    split_ifs with hc2 hpos2 hc1 hpos1
    · simp only [Option.getD_some]
      refine pairwise_buildRectRows_replicate 0 ?_
      intro r c r' c' hr hr' hcx hcx' hne
      exact buildRectCell_not_overlaps
        (by rw [swapSize_width]; exact hoH.le)
        (by rw [swapSize_height]; exact hoW.le)
        (fun h => hne ⟨by omega, h.2⟩)
    · simp only [Option.getD_none]
      exact List.Pairwise.nil
    · simp only [Option.getD_some]
      refine pairwise_buildRectRows_replicate 0 ?_
      intro r c r' c' hr hr' hcx hcx' hne
      exact buildRectCell_not_overlaps
        (by rw [swapSize_width]; exact hoH.le)
        (by rw [swapSize_height]; exact hoW.le)
        (fun h => hne ⟨by omega, h.2⟩)
    · simp only [Option.getD_none]
      exact List.Pairwise.nil
    · simp only [Option.getD_none]
      exact List.Pairwise.nil
  · intro p hp q hq
    rw [layoutResultModel_main, mem_buildRectRows_replicate 0] at hp
    obtain ⟨r, c, hrlt, hclt, rfl⟩ := hp
    rw [layoutResultModel_remain] at hq
    split_ifs at hq with hc2 hpos2 hc1 hpos1
    · simp only [Option.getD_some] at hq
      rw [mem_buildRectRows_replicate 0] at hq
      obtain ⟨r', c', hrlt', hclt', rfl⟩ := hq
      refine not_overlaps_of_sep_x ?_
      show 0 + (c : ℤ) * sz.outerSize.width + sz.outerSize.width ≤
        sz.outerSize.width * g.column + (c' : ℤ) * (swapSize sz.outerSize).width
      rw [swapSize_width]
      have h1 := toNat_cast_le_of_lt hclt hoW.le hgc
      have h2 : g.column * sz.outerSize.width = sz.outerSize.width * g.column :=
        mul_comm _ _
      have h3 := mul_nonneg (Int.ofNat_nonneg c') hoH.le
      linarith
    · simp only [Option.getD_none] at hq
      exact absurd hq (List.not_mem_nil q)
    · simp only [Option.getD_some] at hq
      rw [mem_buildRectRows_replicate 0] at hq
      obtain ⟨r', c', hrlt', hclt', rfl⟩ := hq
      refine not_overlaps_of_sep_y ?_
      show 0 + ((0 + r : ℕ) : ℤ) * sz.outerSize.height + sz.outerSize.height ≤
        sz.outerSize.height * g.row + ((0 + r' : ℕ) : ℤ) * (swapSize sz.outerSize).height
      rw [swapSize_height]
      have h1 := toNat_cast_le_of_lt
        (show 0 + r < g.row.toNat by omega) hoH.le hgr
      have h2 : g.row * sz.outerSize.height = sz.outerSize.height * g.row :=
        mul_comm _ _
      have h3 := mul_nonneg (Int.ofNat_nonneg (0 + r')) hoW.le
      linarith
    · simp only [Option.getD_none] at hq
      exact absurd hq (List.not_mem_nil q)
    · simp only [Option.getD_none] at hq
      exact absurd hq (List.not_mem_nil q)

/-- Claim C5: for every valid input on which `calculate` succeeds, no two
outer rectangles within `main` overlap (positive-area intersection), no two
within `remain` overlap, and no `remain` outer rectangle overlaps a `main`
outer rectangle. -/
theorem claim_C5 (s t m : ISquareSize) (o : Bool) (res : CalculationResult)
    (hv : validateInputs s t m = .ok ()) (hc : calculate s t m o = .ok res) :
    List.Pairwise (fun p q => ¬ overlaps p.outer q.outer) res.main ∧
    List.Pairwise (fun p q => ¬ overlaps p.outer q.outer) (res.remain.getD []) ∧
    ∀ p ∈ res.main, ∀ q ∈ res.remain.getD [], ¬ overlaps p.outer q.outer := by
  obtain ⟨hoW, hoH, houtw, houth, hiW, hiH, hmW, hmH⟩ := calcSizing_facts s t m o hv
  obtain ⟨hR, hC, hmain, hremain⟩ := calculate_ok_shape s t m o res hv hc
  rw [hmain, hremain]
  exact layoutResultModel_no_overlap
    ⟨s.height / (calcSizing s t m o).outerSize.height,
     s.width / (calcSizing s t m o).outerSize.width⟩ (calcSizing s t m o)
    hoW hoH hR.le hC.le

/-- Witness for C5 on the scenario-A input. -/
theorem claim_C5_witness :
    ∃ res, calculate ⟨79, 109⟩ ⟨22, 32⟩ ⟨2, 3⟩ true = .ok res ∧
      List.Pairwise (fun p q => ¬ overlaps p.outer q.outer) res.main ∧
      List.Pairwise (fun p q => ¬ overlaps p.outer q.outer) (res.remain.getD []) ∧
      ∀ p ∈ res.main, ∀ q ∈ res.remain.getD [], ¬ overlaps p.outer q.outer := by
  cases hc : calculate ⟨79, 109⟩ ⟨22, 32⟩ ⟨2, 3⟩ true with
  | error e =>
      have hok : (calculate ⟨79, 109⟩ ⟨22, 32⟩ ⟨2, 3⟩ true).isOk = true := by decide
      rw [hc] at hok
      cases hok
  | ok res =>
      exact ⟨res, rfl, claim_C5 ⟨79, 109⟩ ⟨22, 32⟩ ⟨2, 3⟩ true res (by decide) hc⟩

end CalculatorLayout
